import Mathlib

/-!
Verification development for the butterfly routing core: the glob pattern
matcher and substitution engine (src/butterfly-cli/parsers/pattern-matcher.ts),
the sitemap data model and default sitemap (sitemap-parser.ts), the ordered
multi-pipeline route resolver (sitemap-router.ts), the request handler
(butterfly-handler.ts) and the build-time route enumerator (ssg-generator.ts).

Strings are modelled as Lean `String` / `List Char`.  The JavaScript regular
expressions that the code builds at runtime are modelled by a small regex
interpreter covering exactly the constructs those built regex strings can
contain (escaped literal characters, the inserted groups `(.*)`, `([^/]*)`
and `(.+)`, a bare `.`, and the `?` / `??` quantifiers); any other bare
metacharacter is mapped to a construction error, mirroring the fact that it
cannot be produced by the code paths under verification.  JavaScript `.`
does not match line terminators, which the model reproduces.
-/

deriving instance DecidableEq for Except

/-- The character `\x7b` (left curly brace). -/
def lbrace : Char := Char.ofNat 123

/-- The character `\x7d` (right curly brace). -/
def rbrace : Char := Char.ofNat 125

/-- Shorthand: the character list underlying a string literal. -/
def toL (s : String) : List Char := s.data

/-- Does the list `s` start with `pre`? (JS `String.prototype.startsWith`.) -/
def startsWithL : List Char → List Char → Bool
  | [], _ => true
  | _ :: _, [] => false
  | p :: ps, c :: cs => p = c && startsWithL ps cs

/-- Does `hay` contain `needle` as a contiguous substring? (JS `String.prototype.includes`.) -/
def containsSub (needle : List Char) : List Char → Bool
  | [] => startsWithL needle []
  | c :: cs => startsWithL needle (c :: cs) || containsSub needle cs

/-- Fueled worker for `replaceAllL`; one unit of fuel per step, each step
consumes at least one character, so fuel = initial length suffices. -/
def replaceAllF (needle repl : List Char) : Nat → List Char → List Char
  | _, [] => []
  | 0, s => s
  | fuel + 1, c :: cs =>
    if needle ≠ [] ∧ startsWithL needle (c :: cs) then
      repl ++ replaceAllF needle repl fuel (List.drop needle.length (c :: cs))
    else
      c :: replaceAllF needle repl fuel cs

/-- JS global string replacement (`str.replace(/lit/g, repl)` for a literal
pattern): leftmost, non-overlapping, the replacement text is not rescanned. -/
def replaceAllL (needle repl s : List Char) : List Char :=
  replaceAllF needle repl s.length s

/-- JS single string replacement (`str.replace('lit', repl)`): only the first
occurrence of the needle is replaced. -/
def replaceFirstL (needle repl : List Char) : List Char → List Char
  | [] => []
  | c :: cs =>
    if needle ≠ [] ∧ startsWithL needle (c :: cs) then
      repl ++ List.drop needle.length (c :: cs)
    else
      c :: replaceFirstL needle repl cs

/-- First `some` produced by `f` over a list, in order: the backtracking
priority of alternatives in a regex engine. -/
def firstSome {α β : Type} (f : α → Option β) : List α → Option β
  | [] => none
  | a :: as =>
    match f a with
    | some b => some b
    | none => firstSome f as

/-- All splits `(pre, suf)` of `s` with `pre ++ suf = s` and every character
of `pre` satisfying `ok`, longest `pre` first — the candidate list of a
greedy character-class star. -/
def gsplits (ok : Char → Bool) : List Char → List (List Char × List Char)
  | [] => [([], [])]
  | c :: cs =>
    (if ok c then (gsplits ok cs).map (fun pq => (c :: pq.1, pq.2)) else []) ++ [([], c :: cs)]

/-- JS `.` semantics: any character except a line terminator. -/
def nonTerm (c : Char) : Bool :=
  c ≠ '\n' && c ≠ '\r' && c.toNat ≠ 8232 && c.toNat ≠ 8233

/-- Kinds of capture groups appearing in the regexes the code constructs:
`(.*)`, `([^/]*)` and `(.+)`. -/
inductive GKind : Type
  | anyStar
  | notSlash
  | anyPlus
deriving DecidableEq, Repr

/-- Regex atoms reachable in the constructed regex strings. -/
inductive RAtom : Type
  | lit (c : Char)
  | dot
  | grp (k : GKind)
deriving DecidableEq, Repr

/-- Quantifier on an atom: exactly once, greedy `?`, or lazy `??`. -/
inductive RQuant : Type
  | one
  | opt
  | optLazy
deriving DecidableEq, Repr

/-- A quantified atom. -/
structure RItem : Type where
  atom : RAtom
  quant : RQuant
deriving DecidableEq, Repr

/-- Errors of JS `new RegExp` on the reachable inputs (`nothingToRepeat` is
the SyntaxError thrown for a quantifier with no preceding atom, e.g. `^?$`),
plus a conservative `unsupported` for metacharacters the construction sites
cannot emit. -/
inductive RegexErr : Type
  | nothingToRepeat
  | danglingEscape
  | unsupported
  | internal
deriving DecidableEq, Repr

/-- Fueled regex parser worker; consumes at least one character per step. -/
def parseLoopF : Nat → List Char → List RItem → Except RegexErr (List RItem)
  | _, [], acc => .ok acc.reverse
  | 0, _ :: _, _ => .error .internal
  | fuel + 1, '\\' :: rest, acc =>
    match rest with
    | [] => .error .danglingEscape
    | c :: rest' => parseLoopF fuel rest' (⟨.lit c, .one⟩ :: acc)
  | fuel + 1, '(' :: rest, acc =>
    if startsWithL (toL ".*)") rest then
      parseLoopF fuel (List.drop 3 rest) (⟨.grp .anyStar, .one⟩ :: acc)
    else if startsWithL (toL "[^/]*)") rest then
      parseLoopF fuel (List.drop 6 rest) (⟨.grp .notSlash, .one⟩ :: acc)
    else if startsWithL (toL ".+)") rest then
      parseLoopF fuel (List.drop 3 rest) (⟨.grp .anyPlus, .one⟩ :: acc)
    else .error .unsupported
  | fuel + 1, '?' :: rest, acc =>
    match acc with
    | [] => .error .nothingToRepeat
    | ⟨a, .one⟩ :: acc' => parseLoopF fuel rest (⟨a, .opt⟩ :: acc')
    | ⟨a, .opt⟩ :: acc' => parseLoopF fuel rest (⟨a, .optLazy⟩ :: acc')
    | ⟨_, .optLazy⟩ :: _ => .error .nothingToRepeat
  | fuel + 1, '.' :: rest, acc => parseLoopF fuel rest (⟨.dot, .one⟩ :: acc)
  | fuel + 1, c :: rest, acc =>
    if c = '*' ∨ c = '+' ∨ c = lbrace ∨ c = rbrace ∨ c = '$' ∨ c = '^' ∨
       c = '|' ∨ c = '[' ∨ c = ']' ∨ c = ')' then
      .error .unsupported
    else
      parseLoopF fuel rest (⟨.lit c, .one⟩ :: acc)

/-- Parse a constructed regex body (the text between the added `^` and `$`
anchors) into a sequence of quantified atoms, or fail as `new RegExp` does. -/
def parseItems (s : List Char) : Except RegexErr (List RItem) :=
  parseLoopF s.length s []

/-- Candidate consumptions of one group iteration, in backtracking priority
order (greedy: longest first; `(.+)` additionally requires progress). -/
def grpSplits : GKind → List Char → List (List Char × List Char)
  | .anyStar, s => gsplits nonTerm s
  | .notSlash, s => gsplits (fun c => c ≠ '/') s
  | .anyPlus, s => (gsplits nonTerm s).filter (fun pq => pq.1 ≠ [])

/-- Anchored match of a quantified-atom sequence against a character list,
with JS backtracking priority (greedy tries longer consumptions first, a
quantified group matching empty falls back to zero iterations with an
undefined capture).  Returns the captures of the groups in order; `none` is
JS `undefined` for a group skipped by its quantifier. -/
def matchItems : List RItem → List Char → Option (List (Option (List Char)))
  | [], s => if s = [] then some [] else none
  | ⟨.lit c, .one⟩ :: rest, s =>
    match s with
    | c' :: s' => if c' = c then matchItems rest s' else none
    | [] => none
  | ⟨.dot, .one⟩ :: rest, s =>
    match s with
    | c' :: s' => if nonTerm c' then matchItems rest s' else none
    | [] => none
  | ⟨.lit c, .opt⟩ :: rest, s =>
    match (match s with
           | c' :: s' => if c' = c then matchItems rest s' else none
           | [] => none) with
    | some r => some r
    | none => matchItems rest s
  | ⟨.dot, .opt⟩ :: rest, s =>
    match (match s with
           | c' :: s' => if nonTerm c' then matchItems rest s' else none
           | [] => none) with
    | some r => some r
    | none => matchItems rest s
  | ⟨.lit c, .optLazy⟩ :: rest, s =>
    match matchItems rest s with
    | some r => some r
    | none =>
      match s with
      | c' :: s' => if c' = c then matchItems rest s' else none
      | [] => none
  | ⟨.dot, .optLazy⟩ :: rest, s =>
    match matchItems rest s with
    | some r => some r
    | none =>
      match s with
      | c' :: s' => if nonTerm c' then matchItems rest s' else none
      | [] => none
  | ⟨.grp k, .one⟩ :: rest, s =>
    firstSome (fun pq => (matchItems rest pq.2).map (fun caps => some pq.1 :: caps))
      (grpSplits k s)
  | ⟨.grp k, .opt⟩ :: rest, s =>
    match firstSome
        (fun pq =>
          if pq.1 = [] then none
          else (matchItems rest pq.2).map (fun caps => some pq.1 :: caps))
        (grpSplits k s) with
    | some r => some r
    | none => (matchItems rest s).map (fun caps => none :: caps)
  | ⟨.grp k, .optLazy⟩ :: rest, s =>
    match (matchItems rest s).map (fun caps => none :: caps) with
    | some r => some r
    | none =>
      firstSome
        (fun pq =>
          if pq.1 = [] then none
          else (matchItems rest pq.2).map (fun caps => some pq.1 :: caps))
        (grpSplits k s)

/-- The characters escaped by `patternToRegex`: `.+^${}()|[]\` — note that
`?` is absent (and `*` is deliberately kept). -/
def pmEscSet : List Char :=
  ['.', '+', '^', '$', lbrace, rbrace, '(', ')', '|', '[', ']', '\\']

/-- Source `PatternMatcher.patternToRegex`: escape the characters of `pmEscSet`,
replace `**` by a marker then `*` by a second marker, then expand the
markers to `(.*)` and `([^/]*)`. -/
def patternToRegex (p : List Char) : List Char :=
  let e1 := p.flatMap (fun c => if pmEscSet.contains c then ['\\', c] else [c])
  let e2 := replaceAllL (toL "**") (toL "___DOUBLESTAR___") e1
  let e3 := replaceAllL (toL "*") (toL "___SINGLESTAR___") e2
  let e4 := replaceAllL (toL "___DOUBLESTAR___") (toL "(.*)") e3
  replaceAllL (toL "___SINGLESTAR___") (toL "([^/]*)") e4

/-- Source `MatchResult` of the pattern matcher: the JS match array
(`[full, g1, g2, ...]`); an entry is `none` when the JS value is `undefined`. -/
structure MatchResult : Type where
  substitutions : List (Option String)
deriving DecidableEq, Repr

/-- Source `PatternMatcher.match(path, pattern)`: empty-pattern special cases, then
compile the pattern (a compilation failure is a thrown SyntaxError, the
`.error` channel) and run the anchored regex.  In the JS match array the
entry 0 is the whole (anchored) match, i.e. the path itself; with no capture
groups the code returns `[regexMatch[0]]`, which coincides with the full
array. -/
def matchPattern (path pattern : String) : Except RegexErr (Option MatchResult) :=
  if pattern = "" ∧ path = "" then .ok (some ⟨[some path]⟩)
  else if pattern = "" ∨ path = "" then .ok none
  else
    match parseItems (patternToRegex pattern.data) with
    | .error e => .error e
    | .ok items =>
      match matchItems items path.data with
      | none => .ok none
      | some caps =>
        .ok (some ⟨some path :: caps.map (Option.map (fun l => String.mk l))⟩)

/-- Maximal leading run of decimal digits of a list, and the remainder. -/
def splitDigits : List Char → List Char × List Char
  | [] => ([], [])
  | c :: cs =>
    if c.isDigit then
      let p := splitDigits cs
      (c :: p.1, p.2)
    else ([], c :: cs)

/-- Numeric value of a digit run (JS `parseInt`, exact on the in-range
indices that matter). -/
def natFromDigits (ds : List Char) : Nat :=
  ds.foldl (fun n c => n * 10 + (c.toNat - 48)) 0

/-- Fueled worker for `substitute`: scan for `\x7b digits \x7d`; replace the
placeholder by the substitution at that index when it is defined, keep the
placeholder text verbatim otherwise. -/
def substituteF (subs : List (Option String)) : Nat → List Char → List Char
  | _, [] => []
  | 0, s => s
  | fuel + 1, c :: cs =>
    if c = lbrace then
      match splitDigits cs with
      | ([], _) => c :: substituteF subs fuel cs
      | (d :: ds, rest) =>
        match rest with
        | r :: rest' =>
          if r = rbrace then
            (match (subs.get? (natFromDigits (d :: ds))).getD none with
             | some v => v.data
             | none => c :: (d :: ds) ++ [r]) ++ substituteF subs fuel rest'
          else c :: substituteF subs fuel cs
        | [] => c :: substituteF subs fuel cs
    else c :: substituteF subs fuel cs

/-- Source `PatternMatcher.substitute(template, originalPath, substitutions)`: JS
`template.replace(/\x7b(\d+)\x7d/g, ...)` with the tolerant out-of-range
policy; the `originalPath` parameter is unused in the source as well. -/
def substitute (template : String) (_originalPath : String)
    (subs : List (Option String)) : String :=
  String.mk (substituteF subs template.data.length template.data)

example : matchPattern "about" "*" =
    .ok (some ⟨[some "about", some "about"]⟩) := by decide
example : matchPattern "folder/about" "*" = .ok none := by decide
example : matchPattern "a/b/c" "**" =
    .ok (some ⟨[some "a/b/c", some "a/b/c"]⟩) := by decide
example : matchPattern "about.html" "*.html" =
    .ok (some ⟨[some "about.html", some "about"]⟩) := by decide
example : matchPattern "api/v1/users.json" "api/*/*.json" =
    .ok (some ⟨[some "api/v1/users.json", some "v1", some "users"]⟩) := by decide
example : matchPattern "folder/about" "**/about" =
    .ok (some ⟨[some "folder/about", some "folder"]⟩) := by decide
example : matchPattern "a" "?" = .error .nothingToRepeat := by decide
example : matchPattern "a?" "a?" = .ok none := by decide
example : matchPattern "a" "a?" = .ok (some ⟨[some "a"]⟩) := by decide
example : substitute "{1}/{99}" "folder/about" [some "folder/about", some "folder"]
    = "folder/{99}" := by decide

/-- A sitemap action (entities/sitemap.ts): `read` with optional
`rangeSupport` (`none` is the absent/undefined attribute), `generate`, or
`transform`. -/
inductive SAction : Type
  | read (src : String) (rangeSupport : Option Bool)
  | generate (generator : String)
  | transform (transformer : String) (src : String)
deriving DecidableEq, Repr

/-- A `(pattern, action)` rule. -/
structure SMatch : Type where
  pattern : String
  action : SAction
deriving DecidableEq, Repr

/-- An ordered pipeline of rules (source field name: `matches`, a reserved
word in Lean). -/
structure SPipeline : Type where
  matchRules : List SMatch
deriving DecidableEq, Repr

/-- An ordered sitemap of pipelines. -/
structure Sitemap : Type where
  pipelines : List SPipeline
deriving DecidableEq, Repr

/-- Source `SitemapParser.generateDefaultSitemap()`: one pipeline with, in order:
empty path, directory index, the five range-enabled video extensions, any
extension, and the extensionless catch-all. -/
def generateDefaultSitemap : Sitemap :=
  ⟨[⟨[⟨"", .read "index.html" none⟩,
      ⟨"**/", .read "{1}/index.html" none⟩,
      ⟨"**.mp4", .read "{0}" (some true)⟩,
      ⟨"**.webm", .read "{0}" (some true)⟩,
      ⟨"**.mov", .read "{0}" (some true)⟩,
      ⟨"**.avi", .read "{0}" (some true)⟩,
      ⟨"**.mkv", .read "{0}" (some true)⟩,
      ⟨"**.*", .read "{0}" none⟩,
      ⟨"**", .read "{1}.html" none⟩]⟩]⟩

/-- The per-request resolution result (`RouteMatch`). -/
inductive RouteMatch : Type
  | found (assetPath : String) (action : SAction)
  | unmatchedRoute
deriving DecidableEq, Repr

/-- The `pathname.startsWith("/") ? pathname.slice(1) : pathname` cleaning
step of the router. -/
def cleanPathOf (pathname : String) : String :=
  if startsWithL (toL "/") pathname.data then String.mk (pathname.data.drop 1)
  else pathname

/-- Resolved asset path of a matched rule: substitute the captures into the
action's `src` for read and transform, the cleaned path itself for generate. -/
def assetOf (m : SMatch) (cleanPath : String) (res : MatchResult) : String :=
  match m.action with
  | .read src _ => substitute src cleanPath res.substitutions
  | .transform _ src => substitute src cleanPath res.substitutions
  | .generate _ => cleanPath

/-- One step of the router loop: the rule's verdict, or the propagated
regex-construction error. -/
def tryMatch (cleanPath : String) (m : SMatch) :
    Except RegexErr (Option (String × SAction)) :=
  (matchPattern cleanPath m.pattern).map
    (Option.map (fun res => (assetOf m cleanPath res, m.action)))

/-- Scan the rules of one pipeline in document order, stopping at the first
success. -/
def scanMatches (cleanPath : String) : List SMatch →
    Except RegexErr (Option (String × SAction))
  | [] => .ok none
  | m :: rest =>
    match tryMatch cleanPath m with
    | .error e => .error e
    | .ok (some r) => .ok (some r)
    | .ok none => scanMatches cleanPath rest

/-- Scan the pipelines in document order, stopping at the first success. -/
def scanPipelines (cleanPath : String) : List SPipeline →
    Except RegexErr (Option (String × SAction))
  | [] => .ok none
  | pl :: rest =>
    match scanMatches cleanPath pl.matchRules with
    | .error e => .error e
    | .ok (some r) => .ok (some r)
    | .ok none => scanPipelines cleanPath rest

/-- Source `SitemapRouter.matchRequest(pathname, sitemap)`: strip one leading `/`,
scan pipelines then rules in document order, return on the first success,
`unmatchedRoute` when nothing matches anywhere.  A thrown regex
construction error surfaces on the `.error` channel. -/
def matchRequest (pathname : String) (sitemap : Sitemap) :
    Except RegexErr RouteMatch :=
  let cleanPath := cleanPathOf pathname
  match scanPipelines cleanPath sitemap.pipelines with
  | .error e => .error e
  | .ok (some r) => .ok (.found r.1 r.2)
  | .ok none => .ok .unmatchedRoute

/-- The `sitemapValidation` diagnostics attached by the request handler. -/
structure ValidationInfo : Type where
  success : Bool
  errors : Option (List String)
deriving DecidableEq, Repr

/-- Source `ButterflyHandlerResult`; `none` fields are JS `undefined`. -/
structure HandlerResult : Type where
  matched : Bool
  assetPath : Option String
  rangeSupport : Option Bool
  fallbackToDefault : Option Bool
  sitemapValidation : Option ValidationInfo
deriving DecidableEq, Repr

/-- The `sitemapResult` step of `ButterflyHandler.process`.  The asset store
is the injected `AssetLoader` collaborator, modelled as `loadAsset` (`none`
is `AssetNotFoundError`); `parse` is the injected `SitemapParser.parse`,
whose XML layer is the external `fast-xml-parser` library, modelled
abstractly as a function returning either a sitemap or the error message the
handler logs (the handler only ever pattern-matches on that result).  No
sitemap document means the default sitemap with no validation metadata; a
parse failure means the default sitemap with `{success := false, errors :=
[msg]}`; a parse success means the custom sitemap with `{success := true}`. -/
def sitemapResultOf (parse : String → Except String Sitemap)
    (loadAsset : String → Option String) : Sitemap × Option ValidationInfo :=
  match loadAsset ".moneta/sitemap.xml" with
  | none => (generateDefaultSitemap, (none : Option ValidationInfo))
  | some xml =>
    match parse xml with
    | .error msg => (generateDefaultSitemap, some ⟨false, some [msg]⟩)
    | .ok sm => (sm, some ⟨true, none⟩)

/-- Source `ButterflyHandler.process(pathname)`: acquire the sitemap (custom or
default) with its validation diagnostics via `sitemapResultOf`, delegate to
the router, and fill the result: unmatched gives `{matched := false,
fallbackToDefault := true}` plus the diagnostics, matched gives the resolved
asset path, the `rangeSupport` of a read action (`undefined` when the action
carries none, `false` for non-read actions), `fallbackToDefault := false`
and the diagnostics. -/
def process (parse : String → Except String Sitemap)
    (loadAsset : String → Option String) (pathname : String) :
    Except RegexErr HandlerResult :=
  let sitemapResult := sitemapResultOf parse loadAsset
  match matchRequest pathname sitemapResult.1 with
  | .error e => .error e
  | .ok .unmatchedRoute =>
    .ok ⟨false, none, none, some true, sitemapResult.2⟩
  | .ok (.found assetPath action) =>
    .ok ⟨true, some assetPath,
      (match action with
       | .read _ rs => rs
       | _ => some false),
      some false, sitemapResult.2⟩

example : matchRequest "" generateDefaultSitemap =
    .ok (.found "index.html" (.read "index.html" none)) := by decide
example : matchRequest "about/" generateDefaultSitemap =
    .ok (.found "about/index.html" (.read "{1}/index.html" none)) := by decide
example : matchRequest "about" generateDefaultSitemap =
    .ok (.found "about.html" (.read "{1}.html" none)) := by decide
example : matchRequest "styles.css" generateDefaultSitemap =
    .ok (.found "styles.css" (.read "{0}" none)) := by decide
example : matchRequest "movie.mp4" generateDefaultSitemap =
    .ok (.found "movie.mp4" (.read "{0}" (some true))) := by decide
example : matchRequest "/about" generateDefaultSitemap =
    .ok (.found "about.html" (.read "{1}.html" none)) := by decide
example : matchRequest "docs/getting-started" generateDefaultSitemap =
    .ok (.found "docs/getting-started.html" (.read "{1}.html" none)) := by decide
example : matchRequest "a
b" generateDefaultSitemap = .ok .unmatchedRoute := by decide

/-- A build-time `GeneratedRoute`: the concrete request URL, the static
output file written for it, and the source asset it serves. -/
structure GeneratedRoute : Type where
  pattern : String
  outputPath : String
  sourceAsset : String
deriving DecidableEq, Repr

/-- JS `assetPath.split('/')` on character lists. -/
def splitSlash : List Char → List (List Char)
  | [] => [[]]
  | c :: cs =>
    if c = '/' then [] :: splitSlash cs
    else
      match splitSlash cs with
      | g :: gs => (c :: g) :: gs
      | [] => [[c]]

/-- Join path fragments with `/` (the `[...dirParts, name].join('/')` step). -/
def joinParts (parts : List (List Char)) : List Char :=
  match parts with
  | [] => []
  | p :: ps => p ++ (ps.flatMap (fun q => '/' :: q))

/-- The glob-decomposition loop of `findMatchingFiles`: directory parts up
to the first fragment containing `*`, and that fragment as the file
pattern (empty when no fragment contains `*`). -/
def splitGlob : List (List Char) → List (List Char) × List Char
  | [] => ([], [])
  | p :: rest =>
    if p.contains '*' then ([], p)
    else
      let d := splitGlob rest
      (p :: d.1, d.2)

/-- Node `fs.readdir(searchDir)` restricted to plain files, modelled over the
asset inventory (the relative file paths under the source root, in
filesystem enumeration order): the names `n` with `dir/n` in the inventory
and no further `/` in `n`. -/
def entriesIn (inventory : List String) (dirParts : List (List Char)) :
    List (List Char) :=
  inventory.filterMap (fun p =>
    if dirParts = [] then
      if p.data.contains '/' then none else some p.data
    else
      let pre := joinParts dirParts ++ ['/']
      if startsWithL pre p.data then
        let name := p.data.drop pre.length
        if name.contains '/' ∨ name = [] then none else some name
      else none)

/-- Source `findMatchingFiles(sourceDir, globPattern)`: split the glob, list the
search directory, turn the file fragment into `^...$` with every `*`
replaced by `(.+)`, and keep the matching names re-joined with the
directory parts.  A `new RegExp` failure is caught by the surrounding
`try`, yielding the empty file list. -/
def findMatchingFiles (inventory : List String) (globPattern : List Char) :
    List (List Char) :=
  let d := splitGlob (splitSlash globPattern)
  let names := entriesIn inventory d.1
  let regexPattern := replaceAllL (toL "*") (toL "(.+)") d.2
  match parseItems regexPattern with
  | .error _ => []
  | .ok items =>
    (names.filter (fun n => (matchItems items n).isSome)).map
      (fun n => joinParts (d.1 ++ [n]))

/-- The escape set of `createWildcardRegex` — unlike `patternToRegex` it
escapes every regex special character, `*`, `+` and `?` included. -/
def cwrEscSet : List Char :=
  ['.', '*', '+', '?', '^', '$', lbrace, rbrace, '(', ')', '|', '[', ']', '\\']

/-- Source `createWildcardRegex(srcPattern)`: escape everything, then replace the
escaped `\x7b1\x7d` sequence by the capture group `(.+)`; returns the
parsed anchored regex. -/
def createWildcardRegex (srcPattern : List Char) :
    Except RegexErr (List RItem) :=
  let escaped := srcPattern.flatMap
    (fun c => if cwrEscSet.contains c then ['\\', c] else [c])
  parseItems (replaceAllL ['\\', lbrace, '1', '\\', rbrace] (toL "(.+)") escaped)

/-- Source `discoverWildcardValues(srcPattern, sourceDir)`: glob the source tree
with `\x7b1\x7d` turned into `*`, then recover each wildcard value with
`createWildcardRegex`; a value is kept only when the first capture is a
non-empty (truthy) string.  An uncaught `new RegExp` failure here would
propagate, hence the error channel. -/
def discoverWildcardValues (srcPattern : List Char) (inventory : List String) :
    Except RegexErr (List String) :=
  let globPattern := replaceAllL [lbrace, '1', rbrace] (toL "*") srcPattern
  let files := findMatchingFiles inventory globPattern
  match createWildcardRegex srcPattern with
  | .error e => .error e
  | .ok items =>
    .ok (files.filterMap (fun f =>
      match matchItems items f with
      | some caps =>
        match (caps.get? 0).getD none with
        | some v => if v = [] then none else some (String.mk v)
        | none => none
      | none => none))

/-- Node `path.basename`: the fragment after the last `/`. -/
def basenameL (s : List Char) : List Char :=
  (splitSlash s).getLastD []

/-- Truthiness of Node `path.extname(s)`: the basename has a `.` at a
position after its first character (`".."` has none). -/
def extnameNonempty (s : List Char) : Bool :=
  let b := basenameL s
  if b = toL ".." then false
  else
    match b with
    | [] => false
    | _ :: rest => rest.contains '.'

/-- Node `path.join(cleanUrl, 'index.html')` for the shapes reachable here:
append `index.html`, collapsing the boundary when `cleanUrl` already ends
with `/`. -/
def joinIndexHtml (cleanUrl : List Char) : List Char :=
  if cleanUrl ≠ [] ∧ cleanUrl.getLast? = some '/' then cleanUrl ++ toL "index.html"
  else cleanUrl ++ toL "/index.html"

/-- Source `generateStaticOutputPath(urlPattern)`: empty or root URL is
`index.html`; strip one leading `/`; a URL with an extension is used
unchanged; otherwise a directory with `index.html`. -/
def generateStaticOutputPath (urlPattern : String) : String :=
  if urlPattern = "" ∨ urlPattern = "/" then "index.html"
  else
    let cleanUrl :=
      if startsWithL (toL "/") urlPattern.data then urlPattern.data.drop 1
      else urlPattern.data
    if extnameNonempty cleanUrl then String.mk cleanUrl
    else String.mk (joinIndexHtml cleanUrl)

/-- Source `generateRoutesForPattern(match, ...)` with the filesystem abstracted
to the asset inventory: only read actions produce routes; a `src` without
`\x7b` and without `*` is a single static route; a `src` containing the
`\x7b1\x7d` placeholder produces one route per discovered wildcard value,
with the route URL obtained by `urlPattern.replace('*', value)` — a JS
first-occurrence-only string replacement — and the source asset by
`srcPattern.replace('\x7b1\x7d', value)`. -/
def generateRoutesForPattern (m : SMatch) (inventory : List String) :
    Except RegexErr (List GeneratedRoute) :=
  match m.action with
  | .read src _ =>
    if ¬ src.data.contains lbrace ∧ ¬ src.data.contains '*' then
      .ok [⟨m.pattern, generateStaticOutputPath m.pattern, src⟩]
    else if containsSub [lbrace, '1', rbrace] src.data then
      match discoverWildcardValues src.data inventory with
      | .error e => .error e
      | .ok values =>
        .ok (values.map (fun v =>
          let routeUrl := String.mk (replaceFirstL ['*'] v.data m.pattern.data)
          ⟨routeUrl, generateStaticOutputPath routeUrl,
            String.mk (replaceFirstL [lbrace, '1', rbrace] v.data src.data)⟩))
    else .ok []
  | _ => .ok []

/-- JS `assetPath.replace(/\.[^.]+$/, "")`: strip the last dot and
everything after it, provided the dot is followed by at least one
character and no further dot (the regex ignores `/`, so the suffix may
cross directory separators). -/
def stripLastExt (s : List Char) : List Char :=
  let r := s.reverse
  let p := r.span (fun c => c ≠ '.')
  match p.2 with
  | [] => s
  | _ :: before =>
    if p.1 = [] then s else before.reverse

/-- Node `path.dirname` for relative paths: `"."` when there is no `/`,
otherwise the part before the last `/` (root `/` for a leading slash). -/
def dirnameL (s : List Char) : List Char :=
  if ¬ s.contains '/' then toL "."
  else
    let r := s.reverse
    let p := r.span (fun c => c ≠ '/')
    match p.2 with
    | [] => toL "."
    | [_] => toL "/"
    | _ :: before => before.reverse

/-- Fueled order-preserving de-duplication (`[...new Set(urls)]`). -/
def dedupeF : Nat → List String → List String
  | _, [] => []
  | 0, l => l
  | fuel + 1, x :: xs => x :: dedupeF fuel (xs.filter (fun y => y ≠ x))

/-- Source `generatePotentialUrls(assetPath)`: the asset path itself; for
`index.html` files the containing directory with and without a trailing
slash (or the empty and root URL at the top level); for other files the
extensionless path with and without a trailing slash; and, for nested
assets, the extensionless path with a leading slash — de-duplicated,
insertion order kept. -/
def generatePotentialUrls (assetPath : String) : List String :=
  let withoutExt := stripLastExt assetPath.data
  let base := [assetPath]
  let idxUrls :=
    if decide (toL "index.html" <:+ assetPath.data) then
      let dirPath := dirnameL assetPath.data
      if dirPath ≠ toL "." then [String.mk dirPath, String.mk (dirPath ++ ['/'])]
      else ["", "/"]
    else [String.mk withoutExt, String.mk (withoutExt ++ ['/'])]
  let ghUrls :=
    if assetPath.data.contains '/' then
      [String.mk ('/' :: withoutExt), String.mk ('/' :: withoutExt ++ ['/'])]
    else []
  let urls := base ++ idxUrls ++ ghUrls
  dedupeF urls.length urls

example : generateRoutesForPattern ⟨"api/**", .read "data/{1}.json" none⟩
    ["data/a.json", "data/b.json"] =
    .ok [⟨"api/a*", "api/a*/index.html", "data/a.json"⟩,
         ⟨"api/b*", "api/b*/index.html", "data/b.json"⟩] := by decide
example : generatePotentialUrls "data/a.json" =
    ["data/a.json", "data/a", "data/a/", "/data/a", "/data/a/"] := by decide
example : generatePotentialUrls "blog/index.html" =
    ["blog/index.html", "blog", "blog/", "/blog/index", "/blog/index/"] := by decide
example : generateRoutesForPattern ⟨"api/*", .read "data/{1}.json" none⟩
    ["data/a.json", "data/b.json"] =
    .ok [⟨"api/a", "api/a/index.html", "data/a.json"⟩,
         ⟨"api/b", "api/b/index.html", "data/b.json"⟩] := by decide

/-- Specification-side router, written from the spec's words for the
refinement comparison: scan the rules of all pipelines in document order
(pipelines first, then rules within a pipeline) and let the first rule
whose pattern matches the cleaned path determine the result; `\x7bmatched:
false\x7d` when no rule matches anywhere. -/
def ruleFirstSpec (cleanPath : String) : List SMatch → Option (String × SAction)
  | [] => none
  | m :: rest =>
    match matchPattern cleanPath m.pattern with
    | .ok (some res) => some (assetOf m cleanPath res, m.action)
    | _ => ruleFirstSpec cleanPath rest

/-- Specification-side `matchRequest`: see `ruleFirstSpec`. -/
def matchRequestSpec (pathname : String) (sitemap : Sitemap) : RouteMatch :=
  let cleanPath := cleanPathOf pathname
  match ruleFirstSpec cleanPath (sitemap.pipelines.flatMap SPipeline.matchRules) with
  | some r => .found r.1 r.2
  | none => .unmatchedRoute

/-- A pattern whose compiled regex is constructible (JS `new RegExp` does
not throw on it). -/
def compileOk (pattern : String) : Bool :=
  (parseItems (patternToRegex pattern.data)).isOk

/-- Every pattern of every rule of the sitemap compiles. -/
def sitemapCompileOk (sm : Sitemap) : Bool :=
  sm.pipelines.all (fun pl => pl.matchRules.all (fun m => compileOk m.pattern))

theorem matchPattern_isOk_of_compileOk (cp pat : String)
    (h : compileOk pat = true) : (matchPattern cp pat).isOk = true := by
  unfold matchPattern
  by_cases h1 : pat = "" ∧ cp = ""
  · simp [h1, Except.isOk, Except.toBool]
  · by_cases h2 : pat = "" ∨ cp = ""
    · simp [h1, h2, Except.isOk, Except.toBool]
    · simp only [h1, h2, if_false]
      unfold compileOk at h
      cases hp : parseItems (patternToRegex pat.data) with
      | error e => rw [hp] at h; simp [Except.isOk, Except.toBool] at h
      | ok items =>
        cases hm : matchItems items cp.data <;>
          simp [hm, Except.isOk, Except.toBool]

theorem tryMatch_isOk_of_compileOk (cp : String) (m : SMatch)
    (h : compileOk m.pattern = true) : (tryMatch cp m).isOk = true := by
  unfold tryMatch
  have := matchPattern_isOk_of_compileOk cp m.pattern h
  cases hm : matchPattern cp m.pattern with
  | error e => rw [hm] at this; simp [Except.isOk, Except.toBool] at this
  | ok r => simp [Except.map, Except.isOk, Except.toBool]

theorem scanMatches_isOk (cp : String) (ms : List SMatch)
    (h : ∀ m ∈ ms, compileOk m.pattern = true) :
    ∃ r, scanMatches cp ms = .ok r := by
  induction ms with
  | nil => exact ⟨none, rfl⟩
  | cons m rest ih =>
    have hm := tryMatch_isOk_of_compileOk cp m (h m (List.mem_cons_self m rest))
    unfold scanMatches
    cases ht : tryMatch cp m with
    | error e => rw [ht] at hm; simp [Except.isOk, Except.toBool] at hm
    | ok r =>
      cases r with
      | some x => exact ⟨some x, rfl⟩
      | none => exact ih (fun m' hm' => h m' (List.mem_cons_of_mem m hm'))

theorem scanPipelines_isOk (cp : String) (pls : List SPipeline)
    (h : ∀ pl ∈ pls, ∀ m ∈ pl.matchRules, compileOk m.pattern = true) :
    ∃ r, scanPipelines cp pls = .ok r := by
  induction pls with
  | nil => exact ⟨none, rfl⟩
  | cons pl rest ih =>
    obtain ⟨r, hr⟩ := scanMatches_isOk cp pl.matchRules
      (h pl (List.mem_cons_self pl rest))
    unfold scanPipelines
    rw [hr]
    cases r with
    | some x => exact ⟨some x, rfl⟩
    | none => exact ih (fun pl' hpl' => h pl' (List.mem_cons_of_mem pl hpl'))

theorem matchRequest_isOk (pathname : String) (sm : Sitemap)
    (h : sitemapCompileOk sm = true) :
    ∃ rm, matchRequest pathname sm = .ok rm := by
  unfold sitemapCompileOk at h
  simp only [List.all_eq_true] at h
  obtain ⟨r, hr⟩ := scanPipelines_isOk (cleanPathOf pathname) sm.pipelines
    (fun pl hpl m hm => by
      have := h pl hpl
      simp only [List.all_eq_true] at this
      exact this m hm)
  unfold matchRequest
  simp only [hr]
  cases r with
  | some x => exact ⟨.found x.1 x.2, rfl⟩
  | none => exact ⟨.unmatchedRoute, rfl⟩

theorem tryMatch_eq_ok_some (cp : String) (m : SMatch) (res : MatchResult)
    (h : matchPattern cp m.pattern = .ok (some res)) :
    tryMatch cp m = .ok (some (assetOf m cp res, m.action)) := by
  unfold tryMatch
  rw [h]
  rfl

theorem scanMatches_some (cp : String) (ms : List SMatch)
    (hok : ∀ m ∈ ms, compileOk m.pattern = true)
    (hex : ∃ m ∈ ms, ∃ res, matchPattern cp m.pattern = .ok (some res)) :
    ∃ x, scanMatches cp ms = .ok (some x) := by
  induction ms with
  | nil => obtain ⟨m, hm, _⟩ := hex; exact absurd hm (List.not_mem_nil m)
  | cons m rest ih =>
    have hmok := tryMatch_isOk_of_compileOk cp m (hok m (List.mem_cons_self m rest))
    cases ht : tryMatch cp m with
    | error e => rw [ht] at hmok; simp [Except.isOk, Except.toBool] at hmok
    | ok r =>
      cases r with
      | some x =>
        refine ⟨x, ?_⟩
        unfold scanMatches
        rw [ht]
      | none =>
        obtain ⟨x, hx⟩ := ih (fun m' hm' => hok m' (List.mem_cons_of_mem m hm'))
          (by
            obtain ⟨m', hm', res, hres⟩ := hex
            rcases List.mem_cons.mp hm' with heq | hmem
            · subst heq
              rw [tryMatch_eq_ok_some cp m' res hres] at ht
              exact absurd ht (by simp)
            · exact ⟨m', hmem, res, hres⟩)
        refine ⟨x, ?_⟩
        unfold scanMatches
        rw [ht]
        exact hx

theorem gsplits_cons_all (ok : Char → Bool) (s : List Char)
    (h : s.all ok = true) : ∃ t, gsplits ok s = (s, []) :: t := by
  induction s with
  | nil => exact ⟨[], rfl⟩
  | cons c cs ih =>
    simp only [List.all_cons, Bool.and_eq_true] at h
    obtain ⟨t, ht⟩ := ih h.2
    refine ⟨(t.map (fun pq => (c :: pq.1, pq.2))) ++ [([], c :: cs)], ?_⟩
    unfold gsplits
    rw [h.1, if_pos rfl, ht]
    simp

theorem matchItems_star (s : List Char) (h : s.all nonTerm = true) :
    matchItems [⟨.grp .anyStar, .one⟩] s = some [some s] := by
  obtain ⟨t, ht⟩ := gsplits_cons_all nonTerm s h
  show firstSome
      (fun pq => (matchItems [] pq.2).map (fun caps => some pq.1 :: caps))
      (gsplits nonTerm s) = some [some s]
  rw [ht]
  rfl

theorem string_mk_data (s : String) : String.mk s.data = s := rfl

theorem matchPattern_catchall (cp : String) (h1 : cp ≠ "")
    (h2 : cp.data.all nonTerm = true) :
    matchPattern cp "**" = .ok (some ⟨[some cp, some cp]⟩) := by
  unfold matchPattern
  have hpat : ¬(("**" : String) = "" ∧ cp = "") := by simp
  have hor : ¬(("**" : String) = "" ∨ cp = "") := by simp [h1]
  rw [if_neg hpat, if_neg hor]
  have hparse : parseItems (patternToRegex ("**" : String).data) =
      .ok [⟨.grp .anyStar, .one⟩] := by decide
  simp only [hparse]
  simp only [matchItems_star cp.data h2]
  rfl

theorem cleanPathOf_all_nonTerm (p : String) (h : p.data.all nonTerm = true) :
    (cleanPathOf p).data.all nonTerm = true := by
  unfold cleanPathOf
  by_cases hs : startsWithL (toL "/") p.data = true
  · rw [if_pos hs]
    simp only [List.all_eq_true] at h ⊢
    exact fun c hc => h c (List.drop_subset 1 p.data hc)
  · rw [if_neg hs]
    exact h

theorem cleanPathOf_data (p : String) : (cleanPathOf p).data =
    (if startsWithL (toL "/") p.data then p.data.drop 1 else p.data) := by
  unfold cleanPathOf
  by_cases hs : startsWithL (toL "/") p.data = true
  · rw [if_pos hs, if_pos hs]
  · rw [if_neg hs, if_neg hs]

theorem matchRequest_def (pathname : String) (sm : Sitemap) :
    matchRequest pathname sm =
      match scanPipelines (cleanPathOf pathname) sm.pipelines with
      | .error e => .error e
      | .ok (some r) => .ok (.found r.1 r.2)
      | .ok none => .ok .unmatchedRoute := rfl

theorem scanPipelines_one (cp : String) (rules : List SMatch) :
    scanPipelines cp [⟨rules⟩] =
      match scanMatches cp rules with
      | .error e => .error e
      | .ok (some r) => .ok (some r)
      | .ok none => .ok none := rfl

theorem defaultRules_eq : generateDefaultSitemap.pipelines =
    [⟨[⟨"", .read "index.html" none⟩,
       ⟨"**/", .read "{1}/index.html" none⟩,
       ⟨"**.mp4", .read "{0}" (some true)⟩,
       ⟨"**.webm", .read "{0}" (some true)⟩,
       ⟨"**.mov", .read "{0}" (some true)⟩,
       ⟨"**.avi", .read "{0}" (some true)⟩,
       ⟨"**.mkv", .read "{0}" (some true)⟩,
       ⟨"**.*", .read "{0}" none⟩,
       ⟨"**", .read "{1}.html" none⟩]⟩] := rfl

theorem default_catchall_found (path : String)
    (h : path.data.all nonTerm = true) :
    ∃ ap act, matchRequest path generateDefaultSitemap = .ok (.found ap act) := by
  rw [matchRequest_def, defaultRules_eq, scanPipelines_one]
  by_cases hcp : cleanPathOf path = ""
  · rw [hcp]
    exact ⟨"index.html", .read "index.html" none, by decide⟩
  · obtain ⟨x, hx⟩ := scanMatches_some (cleanPathOf path)
      [⟨"", .read "index.html" none⟩,
       ⟨"**/", .read "{1}/index.html" none⟩,
       ⟨"**.mp4", .read "{0}" (some true)⟩,
       ⟨"**.webm", .read "{0}" (some true)⟩,
       ⟨"**.mov", .read "{0}" (some true)⟩,
       ⟨"**.avi", .read "{0}" (some true)⟩,
       ⟨"**.mkv", .read "{0}" (some true)⟩,
       ⟨"**.*", .read "{0}" none⟩,
       ⟨"**", .read "{1}.html" none⟩]
      (by decide)
      ⟨⟨"**", .read "{1}.html" none⟩, by decide,
        ⟨[some (cleanPathOf path), some (cleanPathOf path)]⟩,
        matchPattern_catchall (cleanPathOf path) hcp
          (cleanPathOf_all_nonTerm path h)⟩
    rw [hx]
    exact ⟨x.1, x.2, rfl⟩

theorem matchItems_nil (s : List Char) :
    matchItems [] s = if s = [] then some [] else none := rfl

theorem matchItems_lit_one (c : Char) (rest : List RItem) (s : List Char) :
    matchItems (⟨.lit c, .one⟩ :: rest) s =
      (match s with
       | c' :: s' => if c' = c then matchItems rest s' else none
       | [] => none) := rfl

theorem matchItems_dot_one (rest : List RItem) (s : List Char) :
    matchItems (⟨.dot, .one⟩ :: rest) s =
      (match s with
       | c' :: s' => if nonTerm c' then matchItems rest s' else none
       | [] => none) := rfl

theorem matchItems_lit_opt (c : Char) (rest : List RItem) (s : List Char) :
    matchItems (⟨.lit c, .opt⟩ :: rest) s =
      (match (match s with
              | c' :: s' => if c' = c then matchItems rest s' else none
              | [] => none) with
       | some r => some r
       | none => matchItems rest s) := rfl

theorem matchItems_dot_opt (rest : List RItem) (s : List Char) :
    matchItems (⟨.dot, .opt⟩ :: rest) s =
      (match (match s with
              | c' :: s' => if nonTerm c' then matchItems rest s' else none
              | [] => none) with
       | some r => some r
       | none => matchItems rest s) := rfl

theorem matchItems_lit_optLazy (c : Char) (rest : List RItem) (s : List Char) :
    matchItems (⟨.lit c, .optLazy⟩ :: rest) s =
      (match matchItems rest s with
       | some r => some r
       | none =>
         match s with
         | c' :: s' => if c' = c then matchItems rest s' else none
         | [] => none) := rfl

theorem matchItems_dot_optLazy (rest : List RItem) (s : List Char) :
    matchItems (⟨.dot, .optLazy⟩ :: rest) s =
      (match matchItems rest s with
       | some r => some r
       | none =>
         match s with
         | c' :: s' => if nonTerm c' then matchItems rest s' else none
         | [] => none) := rfl

theorem matchItems_grp_one (k : GKind) (rest : List RItem) (s : List Char) :
    matchItems (⟨.grp k, .one⟩ :: rest) s =
      firstSome (fun pq => (matchItems rest pq.2).map (fun caps => some pq.1 :: caps))
        (grpSplits k s) := rfl

theorem matchItems_grp_opt (k : GKind) (rest : List RItem) (s : List Char) :
    matchItems (⟨.grp k, .opt⟩ :: rest) s =
      (match firstSome
          (fun pq =>
            if pq.1 = [] then none
            else (matchItems rest pq.2).map (fun caps => some pq.1 :: caps))
          (grpSplits k s) with
       | some r => some r
       | none => (matchItems rest s).map (fun caps => none :: caps)) := rfl

theorem matchItems_grp_optLazy (k : GKind) (rest : List RItem) (s : List Char) :
    matchItems (⟨.grp k, .optLazy⟩ :: rest) s =
      (match (matchItems rest s).map (fun caps => none :: caps) with
       | some r => some r
       | none =>
         firstSome
           (fun pq =>
             if pq.1 = [] then none
             else (matchItems rest pq.2).map (fun caps => some pq.1 :: caps))
           (grpSplits k s)) := rfl

theorem firstSome_eq_some {α β : Type} (f : α → Option β) (l : List α) (b : β)
    (h : firstSome f l = some b) : ∃ a ∈ l, f a = some b := by
  induction l with
  | nil => exact absurd h (by simp [firstSome])
  | cons a as ih =>
    unfold firstSome at h
    cases hf : f a with
    | some b' =>
      simp only [hf] at h
      exact ⟨a, List.mem_cons_self a as, by rw [hf, h]⟩
    | none =>
      simp only [hf] at h
      obtain ⟨a', ha', hfa'⟩ := ih h
      exact ⟨a', List.mem_cons_of_mem a ha', hfa'⟩

theorem gsplits_mem (ok : Char → Bool) (s : List Char)
    (pq : List Char × List Char) (h : pq ∈ gsplits ok s) :
    pq.1.all ok = true ∧ pq.1 ++ pq.2 = s := by
  induction s generalizing pq with
  | nil =>
    unfold gsplits at h
    simp at h
    rw [h]
    exact ⟨rfl, rfl⟩
  | cons c cs ih =>
    unfold gsplits at h
    rcases List.mem_append.mp h with hl | hr
    · by_cases hc : ok c = true
      · rw [if_pos hc] at hl
        obtain ⟨pq', hpq', heq⟩ := List.mem_map.mp hl
        obtain ⟨h1, h2⟩ := ih pq' hpq'
        rw [← heq]
        refine ⟨?_, ?_⟩
        · simp [hc, h1]
        · simp [h2]
      · rw [if_neg hc] at hl
        exact absurd hl (List.not_mem_nil pq)
    · simp at hr
      rw [hr]
      exact ⟨rfl, rfl⟩

/-- The kinds of the capture groups of a compiled item sequence, in group
index order. -/
def capKinds (items : List RItem) : List GKind :=
  items.filterMap (fun it =>
    match it.atom with
    | .grp k => some k
    | _ => none)

theorem capKinds_lit (c : Char) (q : RQuant) (rest : List RItem) :
    capKinds (⟨.lit c, q⟩ :: rest) = capKinds rest := rfl

theorem capKinds_dot (q : RQuant) (rest : List RItem) :
    capKinds (⟨.dot, q⟩ :: rest) = capKinds rest := rfl

theorem capKinds_grp (k : GKind) (q : RQuant) (rest : List RItem) :
    capKinds (⟨.grp k, q⟩ :: rest) = k :: capKinds rest := rfl

theorem grpSplits_notSlash (s : List Char) :
    grpSplits .notSlash s = gsplits (fun c => c ≠ '/') s := rfl

theorem matchItems_notSlash_caps (items : List RItem) :
    ∀ (s : List Char) (caps : List (Option (List Char))),
      matchItems items s = some caps →
      ∀ (i : Nat) (v : List Char),
        (capKinds items).get? i = some .notSlash →
        caps.get? i = some (some v) →
        v.all (fun c => c ≠ '/') = true := by
  induction items with
  | nil =>
    intro s caps h i v hk hc
    rw [matchItems_nil] at h
    by_cases hs : s = []
    · rw [if_pos hs] at h
      cases h
      simp at hc
    · rw [if_neg hs] at h
      exact Option.noConfusion h
  | cons it rest ih =>
    obtain ⟨a, q⟩ := it
    intro s caps h i v hk hc
    cases a with
    | lit c =>
      rw [capKinds_lit] at hk
      cases q with
      | one =>
        rw [matchItems_lit_one] at h
        cases s with
        | nil => simp only [] at h; exact Option.noConfusion h
        | cons c' s' =>
          simp only [] at h
          by_cases hcc : c' = c
          · rw [if_pos hcc] at h
            exact ih _ _ h i v hk hc
          · rw [if_neg hcc] at h
            exact Option.noConfusion h
      | opt =>
        rw [matchItems_lit_opt] at h
        cases s with
        | nil =>
          simp only [] at h
          exact ih _ _ h i v hk hc
        | cons c' s' =>
          simp only [] at h
          by_cases hcc : c' = c
          · rw [if_pos hcc] at h
            cases hrec : matchItems rest s' with
            | some r =>
              rw [hrec] at h
              simp only [] at h
              cases h
              exact ih _ _ hrec i v hk hc
            | none =>
              rw [hrec] at h
              simp only [] at h
              exact ih _ _ h i v hk hc
          · rw [if_neg hcc] at h
            simp only [] at h
            exact ih _ _ h i v hk hc
      | optLazy =>
        rw [matchItems_lit_optLazy] at h
        cases hrec : matchItems rest s with
        | some r =>
          rw [hrec] at h
          simp only [] at h
          cases h
          exact ih _ _ hrec i v hk hc
        | none =>
          rw [hrec] at h
          simp only [] at h
          cases s with
          | nil => exact Option.noConfusion h
          | cons c' s' =>
            simp only [] at h
            by_cases hcc : c' = c
            · rw [if_pos hcc] at h
              exact ih _ _ h i v hk hc
            · rw [if_neg hcc] at h
              exact Option.noConfusion h
    | dot =>
      rw [capKinds_dot] at hk
      cases q with
      | one =>
        rw [matchItems_dot_one] at h
        cases s with
        | nil => simp only [] at h; exact Option.noConfusion h
        | cons c' s' =>
          simp only [] at h
          by_cases hcc : nonTerm c' = true
          · rw [if_pos hcc] at h
            exact ih _ _ h i v hk hc
          · rw [if_neg hcc] at h
            exact Option.noConfusion h
      | opt =>
        rw [matchItems_dot_opt] at h
        cases s with
        | nil =>
          simp only [] at h
          exact ih _ _ h i v hk hc
        | cons c' s' =>
          simp only [] at h
          by_cases hcc : nonTerm c' = true
          · rw [if_pos hcc] at h
            cases hrec : matchItems rest s' with
            | some r =>
              rw [hrec] at h
              simp only [] at h
              cases h
              exact ih _ _ hrec i v hk hc
            | none =>
              rw [hrec] at h
              simp only [] at h
              exact ih _ _ h i v hk hc
          · rw [if_neg hcc] at h
            simp only [] at h
            exact ih _ _ h i v hk hc
      | optLazy =>
        rw [matchItems_dot_optLazy] at h
        cases hrec : matchItems rest s with
        | some r =>
          rw [hrec] at h
          simp only [] at h
          cases h
          exact ih _ _ hrec i v hk hc
        | none =>
          rw [hrec] at h
          simp only [] at h
          cases s with
          | nil => exact Option.noConfusion h
          | cons c' s' =>
            simp only [] at h
            by_cases hcc : nonTerm c' = true
            · rw [if_pos hcc] at h
              exact ih _ _ h i v hk hc
            · rw [if_neg hcc] at h
              exact Option.noConfusion h
    | grp k =>
      rw [capKinds_grp] at hk
      cases q with
      | one =>
        rw [matchItems_grp_one] at h
        obtain ⟨pq, hpq, hfpq⟩ := firstSome_eq_some _ _ _ h
        cases hrec : matchItems rest pq.2 with
        | none => rw [hrec] at hfpq; exact Option.noConfusion hfpq
        | some caps' =>
          rw [hrec] at hfpq
          simp only [Option.map_some'] at hfpq
          cases hfpq
          cases i with
          | zero =>
            rw [List.get?_cons_zero] at hk hc
            cases hk
            cases hc
            rw [grpSplits_notSlash] at hpq
            exact (gsplits_mem _ s pq hpq).1
          | succ i' =>
            rw [List.get?_cons_succ] at hk hc
            exact ih _ _ hrec i' v hk hc
      | opt =>
        rw [matchItems_grp_opt] at h
        cases hfs : firstSome
            (fun pq =>
              if pq.1 = [] then none
              else (matchItems rest pq.2).map (fun caps => some pq.1 :: caps))
            (grpSplits k s) with
        | some r =>
          rw [hfs] at h
          simp only [] at h
          cases h
          obtain ⟨pq, hpq, hfpq⟩ := firstSome_eq_some _ _ _ hfs
          by_cases hpe : pq.1 = []
          · rw [if_pos hpe] at hfpq; exact Option.noConfusion hfpq
          · rw [if_neg hpe] at hfpq
            cases hrec : matchItems rest pq.2 with
            | none => rw [hrec] at hfpq; exact Option.noConfusion hfpq
            | some caps' =>
              rw [hrec] at hfpq
              simp only [Option.map_some'] at hfpq
              cases hfpq
              cases i with
              | zero =>
                rw [List.get?_cons_zero] at hk hc
                cases hk
                cases hc
                rw [grpSplits_notSlash] at hpq
                exact (gsplits_mem _ s pq hpq).1
              | succ i' =>
                rw [List.get?_cons_succ] at hk hc
                exact ih _ _ hrec i' v hk hc
        | none =>
          rw [hfs] at h
          simp only [] at h
          cases hrec : matchItems rest s with
          | none => rw [hrec] at h; exact Option.noConfusion h
          | some caps' =>
            rw [hrec] at h
            simp only [Option.map_some'] at h
            cases h
            cases i with
            | zero =>
              rw [List.get?_cons_zero] at hc
              simp at hc
            | succ i' =>
              rw [List.get?_cons_succ] at hk hc
              exact ih _ _ hrec i' v hk hc
      | optLazy =>
        rw [matchItems_grp_optLazy] at h
        cases hrec : matchItems rest s with
        | some caps' =>
          rw [hrec] at h
          simp only [Option.map_some'] at h
          cases h
          cases i with
          | zero =>
            rw [List.get?_cons_zero] at hc
            simp at hc
          | succ i' =>
            rw [List.get?_cons_succ] at hk hc
            exact ih _ _ hrec i' v hk hc
        | none =>
          rw [hrec] at h
          simp only [Option.map_none'] at h
          obtain ⟨pq, hpq, hfpq⟩ := firstSome_eq_some _ _ _ h
          by_cases hpe : pq.1 = []
          · rw [if_pos hpe] at hfpq; exact Option.noConfusion hfpq
          · rw [if_neg hpe] at hfpq
            cases hrec' : matchItems rest pq.2 with
            | none => rw [hrec'] at hfpq; exact Option.noConfusion hfpq
            | some caps' =>
              rw [hrec'] at hfpq
              simp only [Option.map_some'] at hfpq
              cases hfpq
              cases i with
              | zero =>
                rw [List.get?_cons_zero] at hk hc
                cases hk
                cases hc
                rw [grpSplits_notSlash] at hpq
                exact (gsplits_mem _ s pq hpq).1
              | succ i' =>
                rw [List.get?_cons_succ] at hk hc
                exact ih _ _ hrec' i' v hk hc

theorem ruleFirstSpec_cons (cp : String) (m : SMatch) (rest : List SMatch) :
    ruleFirstSpec cp (m :: rest) =
      (match matchPattern cp m.pattern with
       | .ok (some res) => some (assetOf m cp res, m.action)
       | _ => ruleFirstSpec cp rest) := rfl

theorem scanMatches_eq_spec (cp : String) (ms : List SMatch)
    (hok : ∀ m ∈ ms, compileOk m.pattern = true) :
    scanMatches cp ms = .ok (ruleFirstSpec cp ms) := by
  induction ms with
  | nil => rfl
  | cons m rest ih =>
    have hmp := matchPattern_isOk_of_compileOk cp m.pattern
      (hok m (List.mem_cons_self m rest))
    rw [ruleFirstSpec_cons]
    cases hm : matchPattern cp m.pattern with
    | error e => rw [hm] at hmp; simp [Except.isOk, Except.toBool] at hmp
    | ok r =>
      cases r with
      | some res =>
        unfold scanMatches
        rw [tryMatch_eq_ok_some cp m res hm]
      | none =>
        have ht : tryMatch cp m = .ok none := by
          unfold tryMatch
          rw [hm]
          rfl
        unfold scanMatches
        rw [ht]
        simp only []
        exact ih (fun m' hm' => hok m' (List.mem_cons_of_mem m hm'))

theorem ruleFirstSpec_append (cp : String) (l1 l2 : List SMatch) :
    ruleFirstSpec cp (l1 ++ l2) =
      (match ruleFirstSpec cp l1 with
       | some r => some r
       | none => ruleFirstSpec cp l2) := by
  induction l1 with
  | nil => rfl
  | cons m rest ih =>
    rw [List.cons_append, ruleFirstSpec_cons, ruleFirstSpec_cons]
    cases hm : matchPattern cp m.pattern with
    | error e => simp only []; exact ih
    | ok r =>
      cases r with
      | some res => rfl
      | none => simp only []; exact ih

theorem scanPipelines_eq_spec (cp : String) (pls : List SPipeline)
    (hok : ∀ pl ∈ pls, ∀ m ∈ pl.matchRules, compileOk m.pattern = true) :
    scanPipelines cp pls =
      .ok (ruleFirstSpec cp (pls.flatMap SPipeline.matchRules)) := by
  induction pls with
  | nil => rfl
  | cons pl rest ih =>
    unfold scanPipelines
    rw [scanMatches_eq_spec cp pl.matchRules (hok pl (List.mem_cons_self pl rest))]
    simp only [List.flatMap_cons]
    rw [ruleFirstSpec_append]
    cases hfs : ruleFirstSpec cp pl.matchRules with
    | some r => rfl
    | none =>
      simp only []
      exact ih (fun pl' hpl' => hok pl' (List.mem_cons_of_mem pl hpl'))

theorem matchRequestSpec_def (pathname : String) (sm : Sitemap) :
    matchRequestSpec pathname sm =
      (match ruleFirstSpec (cleanPathOf pathname)
          (sm.pipelines.flatMap SPipeline.matchRules) with
       | some r => .found r.1 r.2
       | none => .unmatchedRoute) := rfl

theorem matchRequest_eq_spec (pathname : String) (sm : Sitemap)
    (h : sitemapCompileOk sm = true) :
    matchRequest pathname sm = .ok (matchRequestSpec pathname sm) := by
  unfold sitemapCompileOk at h
  simp only [List.all_eq_true] at h
  rw [matchRequest_def, matchRequestSpec_def]
  rw [scanPipelines_eq_spec (cleanPathOf pathname) sm.pipelines
    (fun pl hpl m hm => by
      have := h pl hpl
      simp only [List.all_eq_true] at this
      exact this m hm)]
  cases ruleFirstSpec (cleanPathOf pathname) (sm.pipelines.flatMap SPipeline.matchRules) with
  | some r => rfl
  | none => rfl

/-- Wrapper for `substituteF` at adequate fuel. -/
def substituteL (subs : List (Option String)) (s : List Char) : List Char :=
  substituteF subs s.length s

theorem substitute_eq_substituteL (template orig : String)
    (subs : List (Option String)) :
    substitute template orig subs = String.mk (substituteL subs template.data) := rfl

theorem substituteF_nil (subs : List (Option String)) (f : Nat) :
    substituteF subs f [] = [] := by
  cases f <;> rfl

theorem substituteF_cons (subs : List (Option String)) (f : Nat) (c : Char)
    (cs : List Char) :
    substituteF subs (f + 1) (c :: cs) =
      (if c = lbrace then
        match splitDigits cs with
        | ([], _) => c :: substituteF subs f cs
        | (d :: ds, rest) =>
          match rest with
          | r :: rest' =>
            if r = rbrace then
              (match (subs.get? (natFromDigits (d :: ds))).getD none with
               | some v => v.data
               | none => c :: (d :: ds) ++ [r]) ++ substituteF subs f rest'
            else c :: substituteF subs f cs
          | [] => c :: substituteF subs f cs
      else c :: substituteF subs f cs) := rfl

theorem splitDigits_len (l : List Char) :
    (splitDigits l).1.length + (splitDigits l).2.length = l.length := by
  induction l with
  | nil => rfl
  | cons c cs ih =>
    unfold splitDigits
    by_cases hd : c.isDigit = true
    · rw [if_pos hd]
      simp only [List.length_cons]
      omega
    · rw [if_neg hd]
      simp only [List.length_cons, List.length_nil]
      omega

theorem substituteF_fuel (subs : List (Option String)) :
    ∀ (f g : Nat) (s : List Char), s.length ≤ f → s.length ≤ g →
      substituteF subs f s = substituteF subs g s := by
  intro f
  induction f with
  | zero =>
    intro g s hf _
    have hs : s = [] := List.eq_nil_of_length_eq_zero (Nat.le_zero.mp hf)
    rw [hs, substituteF_nil, substituteF_nil]
  | succ f' ih =>
    intro g s hf hg
    cases s with
    | nil => rw [substituteF_nil, substituteF_nil]
    | cons c cs =>
      cases g with
      | zero => simp at hg
      | succ g' =>
        rw [substituteF_cons, substituteF_cons]
        simp only [List.length_cons] at hf hg
        have hf' : cs.length ≤ f' := Nat.lt_succ_iff.mp (Nat.lt_of_lt_of_le (Nat.lt_succ_self _) hf)
        have hg' : cs.length ≤ g' := Nat.lt_succ_iff.mp (Nat.lt_of_lt_of_le (Nat.lt_succ_self _) hg)
        by_cases hc : c = lbrace
        · rw [if_pos hc, if_pos hc]
          have hlen := splitDigits_len cs
          cases hsd : splitDigits cs with
          | mk dpart rpart =>
            rw [hsd] at hlen
            simp only [] at hlen
            cases dpart with
            | nil =>
              simp only []
              rw [ih g' cs hf' hg']
            | cons d ds =>
              simp only []
              cases rpart with
              | nil =>
                simp only []
                rw [ih g' cs hf' hg']
              | cons r rest' =>
                simp only []
                by_cases hr : r = rbrace
                · rw [if_pos hr, if_pos hr]
                  have hrest : rest'.length ≤ f' ∧ rest'.length ≤ g' := by
                    simp only [List.length_cons] at hlen
                    constructor <;> omega
                  rw [ih g' rest' hrest.1 hrest.2]
                · rw [if_neg hr, if_neg hr]
                  rw [ih g' cs hf' hg']
        · rw [if_neg hc, if_neg hc]
          rw [ih g' cs hf' hg']

theorem substituteL_nil (subs : List (Option String)) :
    substituteL subs [] = [] := rfl

theorem substituteL_cons_other (subs : List (Option String)) (c : Char)
    (rest : List Char) (hc : c ≠ lbrace) :
    substituteL subs (c :: rest) = c :: substituteL subs rest := by
  unfold substituteL
  rw [List.length_cons, substituteF_cons, if_neg hc]

theorem splitDigits_digits_stop (ds : List Char) (c : Char) (r : List Char)
    (hds : ds.all Char.isDigit = true) (hc : c.isDigit = false) :
    splitDigits (ds ++ c :: r) = (ds, c :: r) := by
  induction ds with
  | nil =>
    rw [List.nil_append]
    unfold splitDigits
    rw [if_neg (by rw [hc]; exact Bool.false_ne_true)]
  | cons d ds' ih =>
    simp only [List.all_cons, Bool.and_eq_true] at hds
    have ihe := ih hds.2
    rw [List.cons_append]
    show (if d.isDigit then
        ((d :: (splitDigits (ds' ++ c :: r)).1, (splitDigits (ds' ++ c :: r)).2) :
          List Char × List Char)
      else ([], d :: (ds' ++ c :: r))) = (d :: ds', c :: r)
    rw [if_pos hds.1, ihe]

theorem substituteL_placeholder (subs : List (Option String)) (ds rest : List Char)
    (hne : ds ≠ []) (hds : ds.all Char.isDigit = true) :
    substituteL subs (lbrace :: ds ++ rbrace :: rest) =
      (match (subs.get? (natFromDigits ds)).getD none with
       | some v => v.data
       | none => lbrace :: ds ++ [rbrace]) ++ substituteL subs rest := by
  cases ds with
  | nil => exact absurd rfl hne
  | cons d ds' =>
    unfold substituteL
    show substituteF subs (lbrace :: ((d :: ds') ++ rbrace :: rest)).length
        (lbrace :: ((d :: ds') ++ rbrace :: rest)) = _
    have hL : (lbrace :: ((d :: ds') ++ rbrace :: rest)).length =
        ((d :: ds') ++ rbrace :: rest).length + 1 := rfl
    rw [hL, substituteF_cons, if_pos rfl]
    rw [splitDigits_digits_stop (d :: ds') rbrace rest hds (by decide)]
    simp only [if_true]
    have hflen : rest.length ≤ ((d :: ds') ++ rbrace :: rest).length := by
      simp [List.length_append]
      omega
    rw [substituteF_fuel subs ((d :: ds') ++ rbrace :: rest).length rest.length rest
      hflen (Nat.le_refl _)]

theorem process_def (parse : String → Except String Sitemap)
    (loadAsset : String → Option String) (pathname : String) :
    process parse loadAsset pathname =
      (match matchRequest pathname (sitemapResultOf parse loadAsset).1 with
       | .error e => .error e
       | .ok .unmatchedRoute =>
         .ok ⟨false, none, none, some true, (sitemapResultOf parse loadAsset).2⟩
       | .ok (.found assetPath action) =>
         .ok ⟨true, some assetPath,
           (match action with
            | .read _ rs => rs
            | _ => some false),
           some false, (sitemapResultOf parse loadAsset).2⟩) := rfl

/-- Claim C1: the spec requires the enumerator, for the rule `api/**` →
`data/\x7b1\x7d.json` over the files `data/a.json` and `data/b.json`, to
yield routes for exactly `api/a` and `api/b`.  The code instead builds each
route URL with `urlPattern.replace('*', value)`, a first-occurrence-only
string replacement, so the second star of `api/**` survives: the generated
routes are `api/a*` and `api/b*` (with output files `api/a*/index.html`,
`api/b*/index.html`), and the forward-guess URL candidates for
`data/a.json` never include `api/a` either.  This theorem evaluates the
embedded enumerator at that failing input. -/
theorem c1_enumerator_routes_eval :
    generateRoutesForPattern ⟨"api/**", .read "data/{1}.json" none⟩
      ["data/a.json", "data/b.json"] =
      .ok [⟨"api/a*", "api/a*/index.html", "data/a.json"⟩,
           ⟨"api/b*", "api/b*/index.html", "data/b.json"⟩] ∧
    generatePotentialUrls "data/a.json" =
      ["data/a.json", "data/a", "data/a/", "/data/a", "/data/a/"] := by
  exact ⟨by decide, by decide⟩

/-- Claim C2: routing with the default sitemap resolves the five spec
examples, in the default rule precedence: the empty path to `index.html`,
`about/` to `about/index.html`, `about` to `about.html`, `styles.css` to
itself, and `movie.mp4` to itself with a Read action whose rangeSupport is
true. -/
theorem c2_default_routing :
    matchRequest "" generateDefaultSitemap =
      .ok (.found "index.html" (.read "index.html" none)) ∧
    matchRequest "about/" generateDefaultSitemap =
      .ok (.found "about/index.html" (.read "{1}/index.html" none)) ∧
    matchRequest "about" generateDefaultSitemap =
      .ok (.found "about.html" (.read "{1}.html" none)) ∧
    matchRequest "styles.css" generateDefaultSitemap =
      .ok (.found "styles.css" (.read "{0}" none)) ∧
    matchRequest "movie.mp4" generateDefaultSitemap =
      .ok (.found "movie.mp4" (.read "{0}" (some true))) := by
  exact ⟨by decide, by decide, by decide, by decide, by decide⟩

/-- Claim C3: whenever the sitemap document is present but parsing fails,
`process` does not fail the request: for every request path it substitutes
the default sitemap, attaches `{success := false, errors := [message]}`,
and still routes; in particular `process "/about"` returns matched with
asset path `about.html` and the failed-validation diagnostics. -/
theorem c3_degrade_to_default (parse : String → Except String Sitemap)
    (loadAsset : String → Option String) (doc msg : String)
    (hload : loadAsset ".moneta/sitemap.xml" = some doc)
    (hparse : parse doc = .error msg) :
    (∀ pathname, ∃ r, process parse loadAsset pathname = .ok r ∧
        r.sitemapValidation = some ⟨false, some [msg]⟩) ∧
    process parse loadAsset "/about" =
      .ok ⟨true, some "about.html", none, some false,
        some ⟨false, some [msg]⟩⟩ := by
  have hsr1 : (sitemapResultOf parse loadAsset).1 = generateDefaultSitemap := by
    unfold sitemapResultOf
    rw [hload]
    simp only []
    rw [hparse]
  have hsr2 : (sitemapResultOf parse loadAsset).2 =
      some ⟨false, some [msg]⟩ := by
    unfold sitemapResultOf
    rw [hload]
    simp only []
    rw [hparse]
  constructor
  · intro pathname
    obtain ⟨rm, hrm⟩ := matchRequest_isOk pathname generateDefaultSitemap (by decide)
    rw [process_def, hsr1, hsr2, hrm]
    cases rm with
    | unmatchedRoute => exact ⟨_, rfl, rfl⟩
    | found ap act => exact ⟨_, rfl, rfl⟩
  · have habout : matchRequest "/about" generateDefaultSitemap =
        .ok (.found "about.html" (.read "{1}.html" none)) := by decide
    rw [process_def, hsr1, hsr2, habout]

theorem c3_degrade_to_default_witness :
    process (fun _ => .error "bad sitemap")
      (fun p => if p = ".moneta/sitemap.xml" then some "not xml at all" else none)
      "/about" =
      .ok ⟨true, some "about.html", none, some false,
        some ⟨false, some ["bad sitemap"]⟩⟩ :=
  (c3_degrade_to_default (fun _ => .error "bad sitemap")
    (fun p => if p = ".moneta/sitemap.xml" then some "not xml at all" else none)
    "not xml at all" "bad sitemap" (by decide) rfl).2

/-- Claim C4: the spec says `PatternMatcher.match` never throws, and the
code's own comment says it escapes regex special characters; but `?` is a
regex special character missing from the escape class, so the pattern `"?"`
compiles to the regex `^?$`, on which `new RegExp` throws SyntaxError
("nothing to repeat").  This theorem evaluates the embedded matcher at that
failing input. -/
theorem c4_match_throws_eval :
    matchPattern "a" "?" = .error .nothingToRepeat := by decide

/-- Claim C5: the spec says a `*`-free pattern matches exactly itself, every
other regex metacharacter being escaped during compilation.  Because `?` is
not escaped, the `*`-free pattern `"a?"` compiles to `^a?$` (optional `a`):
it fails to match itself and instead matches the different path `"a"`.
This theorem evaluates the embedded matcher at that failing input. -/
theorem c5_literal_pattern_eval :
    matchPattern "a?" "a?" = .ok none ∧
    matchPattern "a" "a?" = .ok (some ⟨[some "a"]⟩) := by
  exact ⟨by decide, by decide⟩

/-- Claim C6: `*` captures never contain `/` while `**` may span segments:
`match("folder/about", "*")` fails, `match("about", "*")` succeeds with
captures `["about", "about"]`, `match("a/b/c", "**")` succeeds with captures
`["a/b/c", "a/b/c"]`; and in general every capture produced by a `([^/]*)`
group (the compilation of a single `*`) contains no `/`. -/
theorem c6_wildcard_slash :
    (matchPattern "folder/about" "*" = .ok none ∧
     matchPattern "about" "*" = .ok (some ⟨[some "about", some "about"]⟩) ∧
     matchPattern "a/b/c" "**" = .ok (some ⟨[some "a/b/c", some "a/b/c"]⟩)) ∧
    (∀ (items : List RItem) (s : List Char) (caps : List (Option (List Char)))
       (i : Nat) (v : List Char),
       matchItems items s = some caps →
       (capKinds items).get? i = some .notSlash →
       caps.get? i = some (some v) →
       v.all (fun c => c ≠ '/') = true) :=
  ⟨⟨by decide, by decide, by decide⟩,
    fun items s caps i v h hk hc => matchItems_notSlash_caps items s caps h i v hk hc⟩

theorem c6_wildcard_slash_witness :
    ("about" : String).data.all (fun c => c ≠ '/') = true :=
  c6_wildcard_slash.2 [⟨.grp .notSlash, .one⟩] ("about" : String).data
    [some ("about" : String).data] 0 ("about" : String).data
    (by decide) (by decide) (by decide)

/-- Claim C7: `substitute` is total — it is a total function of its inputs —
and replaces each placeholder `\x7bk\x7d` whose index is defined in the
substitution array with that entry, leaves any other placeholder verbatim as
literal text, and copies all other characters: stated by the three
characteristic equations of the scan, plus the concrete out-of-range
example `substitute "{1}/{99}"` over two captures. -/
theorem c7_substitute_total :
    (∀ (subs : List (Option String)) (c : Char) (rest : List Char),
       c ≠ lbrace →
       substituteL subs (c :: rest) = c :: substituteL subs rest) ∧
    (∀ (subsS : List String) (ds rest : List Char) (v : String),
       ds ≠ [] → ds.all Char.isDigit = true →
       subsS.get? (natFromDigits ds) = some v →
       substituteL (subsS.map some) (lbrace :: ds ++ rbrace :: rest) =
         v.data ++ substituteL (subsS.map some) rest) ∧
    (∀ (subsS : List String) (ds rest : List Char),
       ds ≠ [] → ds.all Char.isDigit = true →
       subsS.get? (natFromDigits ds) = none →
       substituteL (subsS.map some) (lbrace :: ds ++ rbrace :: rest) =
         lbrace :: ds ++ rbrace :: substituteL (subsS.map some) rest) ∧
    substitute "{1}/{99}" "folder/about" [some "folder/about", some "folder"] =
      "folder/{99}" := by
  refine ⟨fun subs c rest hc => substituteL_cons_other subs c rest hc, ?_, ?_, by decide⟩
  · intro subsS ds rest v hne hds hv
    rw [substituteL_placeholder (subsS.map some) ds rest hne hds]
    rw [List.get?_map, hv]
    rfl
  · intro subsS ds rest hne hds hv
    rw [substituteL_placeholder (subsS.map some) ds rest hne hds]
    rw [List.get?_map, hv]
    simp

theorem c7_substitute_total_witness :
    substituteL (["folder/about", "folder"].map some)
      (lbrace :: ['1'] ++ rbrace :: ("/x" : String).data) =
      ("folder" : String).data ++
        substituteL (["folder/about", "folder"].map some) ("/x" : String).data :=
  c7_substitute_total.2.1 ["folder/about", "folder"] ['1'] ("/x" : String).data
    "folder" (by decide) (by decide) (by decide)

/-- Claim C8 counterexample: with an earlier rule whose pattern `"?"` does
not compile, the router throws (error channel) instead of letting the first
rule that matches — the later catch-all `**` — determine the result
`\x7bmatched, assetPath "a"\x7d` that the claim's algorithm prescribes. -/
theorem c8_counterexample :
    matchRequest "a"
      ⟨[⟨[⟨"?", .read "x" none⟩, ⟨"**", .read "{0}" none⟩]⟩]⟩ =
      .error .nothingToRepeat ∧
    matchRequestSpec "a"
      ⟨[⟨[⟨"?", .read "x" none⟩, ⟨"**", .read "{0}" none⟩]⟩]⟩ =
      .found "a" (.read "{0}" none) := by
  exact ⟨by decide, by decide⟩

/-- Claim C8 (amended): provided every pattern of the sitemap compiles to a
valid regex (no stray `?` quantifier error), `matchRequest` strips one
leading `/`, scans pipelines in document order and rules within each
pipeline in document order, and the first rule whose pattern matches the
cleaned path alone determines the result, with the asset path substituted
from the action's src for Read and Transform and equal to the cleaned path
for Generate; if no rule matches anywhere the result is unmatched — i.e. it
coincides with the specification-side scan `matchRequestSpec`. -/
theorem c8_router_first_match (pathname : String) (sm : Sitemap)
    (h : sitemapCompileOk sm = true) :
    matchRequest pathname sm = .ok (matchRequestSpec pathname sm) :=
  matchRequest_eq_spec pathname sm h

theorem c8_router_first_match_witness :
    matchRequest "special"
      ⟨[⟨[⟨"special", .read "special-file.html" none⟩]⟩,
        ⟨[⟨"**", .read "{1}.html" none⟩]⟩]⟩ =
      .ok (matchRequestSpec "special"
        ⟨[⟨[⟨"special", .read "special-file.html" none⟩]⟩,
          ⟨[⟨"**", .read "{1}.html" none⟩]⟩]⟩) :=
  c8_router_first_match "special"
    ⟨[⟨[⟨"special", .read "special-file.html" none⟩]⟩,
      ⟨[⟨"**", .read "{1}.html" none⟩]⟩]⟩ (by decide)

/-- Claim C9 counterexample: the default-sitemap catch-alls compile to
`.`-based groups, and JavaScript `.` does not match line terminators, so
the one-character path `"\n"` matches no default rule and routing returns
unmatched — the claim's "every request path" is too strong. -/
theorem c9_counterexample :
    matchRequest (String.mk ['\n']) generateDefaultSitemap =
      .ok .unmatchedRoute := by decide

/-- Claim C9 (amended): for every request path containing no line
terminator (LF, CR, U+2028, U+2029), routing with the default sitemap
returns a match — the empty pattern handles the empty cleaned path and the
final `**` catch-all handles every non-empty cleaned path. -/
theorem c9_default_always_matches (path : String)
    (h : path.data.all nonTerm = true) :
    ∃ ap act, matchRequest path generateDefaultSitemap = .ok (.found ap act) :=
  default_catchall_found path h

theorem c9_default_always_matches_witness :
    ∃ ap act, matchRequest "docs/guide" generateDefaultSitemap =
      .ok (.found ap act) :=
  c9_default_always_matches "docs/guide" (by decide)

/-- Claim C10: `process` reports `fallbackToDefault := some true` only when
no route matched, and whenever a route matches `fallbackToDefault` is
`some false` — for every parse function, asset store and path, hence also
when the custom sitemap failed to parse and the matching rule came from the
substituted default sitemap, where only `sitemapValidation` records the
degradation. -/
theorem c10_fallback_flag (parse : String → Except String Sitemap)
    (loadAsset : String → Option String) (pathname : String)
    (r : HandlerResult)
    (h : process parse loadAsset pathname = .ok r) :
    (r.matched = true → r.fallbackToDefault = some false) ∧
    (r.fallbackToDefault = some true → r.matched = false) := by
  rw [process_def] at h
  cases hmr : matchRequest pathname (sitemapResultOf parse loadAsset).1 with
  | error e => rw [hmr] at h; exact Except.noConfusion h
  | ok rm =>
    rw [hmr] at h
    cases rm with
    | unmatchedRoute =>
      simp only [] at h
      cases h
      exact ⟨fun hm => by simp at hm, fun _ => rfl⟩
    | found ap act =>
      simp only [] at h
      cases h
      exact ⟨fun _ => rfl, fun hf => by simp at hf⟩

theorem c10_fallback_flag_witness :
    ((⟨true, some "about.html", none, some false, none⟩ : HandlerResult).matched = true →
      (⟨true, some "about.html", none, some false, none⟩ : HandlerResult).fallbackToDefault =
        some false) ∧
    ((⟨true, some "about.html", none, some false, none⟩ : HandlerResult).fallbackToDefault =
        some true →
      (⟨true, some "about.html", none, some false, none⟩ : HandlerResult).matched = false) :=
  c10_fallback_flag (fun _ => .error "e") (fun _ => none) "/about"
    ⟨true, some "about.html", none, some false, none⟩ (by decide)
